import Mathlib

/-!
Shallow embedding of the `todo-demo` time-tracking application
(`src/src/index.tsx` and the unnamed App component file) and proofs about
its dirty-tracking / change-set mechanism.

Modelling conventions:
* A calendar date (a `Moment` in the source) is modelled by the pair of its
  year and its day-of-year, the only observations the program makes of a date.
* JavaScript `undefined` is modelled by `Option.none`.  A
  `Partial<TimeEntry>` record distinguishes an absent key from a key that is
  present with the value `undefined` (the date picker stores
  `{date: undefined}` when cleared), so the `date` field of a pending record
  is `Option (Option Date)`: the outer layer is key presence, the inner layer
  is the stored value.
* A canonical `TimeEntry.date` is `Option Date` because `save` can commit a
  cleared (`undefined`) date into the canonical list.
* The change-set `Record<EntryId, Partial<TimeEntry>>` is modelled as a
  lookup function `EntryId → Option PartialTimeEntry`; key order is never
  observed by the program logic under verification.
* The derived view `timeEntriesWithChanges` calls `te.date.dayOfYear()`,
  which throws a `TypeError` when the merged date is `undefined`; the model
  therefore returns `Option (List TimeEntry)`, with `none` standing for the
  thrown exception.
-/

/-- Entry identifier, `type EntryId = string` in the source. -/
abbrev EntryId := String

/-- A calendar date: the program only ever observes `dayOfYear()`, and two
dates in different years may share a day-of-year (the known limitation of the
date filter). -/
structure Date where
  year : Int
  doy : Nat
deriving DecidableEq

/-- A canonical time entry, `type TimeEntry` in the source.  The `date` is
optional because `save` can commit an `undefined` date produced by clearing
the date picker. -/
structure TimeEntry where
  id : EntryId
  notes : String
  time : Int
  date : Option Date
deriving DecidableEq

/-- A pending partial record, `Partial<TimeEntry>` in the source.  Every
field is optional (key may be absent).  For `date` the present value itself
may be `undefined` (`none`), written by `onChange({date: d || undefined})`. -/
structure PartialTimeEntry where
  id : Option EntryId := none
  notes : Option String := none
  time : Option Int := none
  date : Option (Option Date) := none
deriving DecidableEq

/-- The change-set, `type ChangedEntries = Record<EntryId, Partial<TimeEntry>>`,
modelled by its lookup function. -/
def ChangedEntries := EntryId → Option PartialTimeEntry

/-- The empty change-set (the `{}` object). -/
def emptyChanges : ChangedEntries := fun _ => none

/-- One field of a JavaScript object spread `{...old, ...new}`: the update
wins exactly when its key is present. -/
def overrideField {α : Type} (old new : Option α) : Option α :=
  match new with
  | some v => some v
  | none => old

/-- The object spread `{ ...currentChanges, ...updates }` used by `change`:
field-by-field, a key present in `updates` wins. -/
def mergePartial (old updates : PartialTimeEntry) : PartialTimeEntry :=
  { id := overrideField old.id updates.id
    notes := overrideField old.notes updates.notes
    time := overrideField old.time updates.time
    date := overrideField old.date updates.date }

/-- The object spread `{ ...existingItem, ...itemChanges }` /
`{ ...te, ...changes[te.id] }`: a canonical entry with a pending record
applied shallowly per field. -/
def applyChanges (te : TimeEntry) (c : PartialTimeEntry) : TimeEntry :=
  { id := match c.id with | some v => v | none => te.id
    notes := match c.notes with | some v => v | none => te.notes
    time := match c.time with | some v => v | none => te.time
    date := match c.date with | some v => v | none => te.date }

/-- Whether a pending record has no key at all (the `{}` record). -/
def PartialTimeEntry.isEmpty (r : PartialTimeEntry) : Bool :=
  r.id.isNone && r.notes.isNone && r.time.isNone && r.date.isNone

/-- The seeded entry list `EXISTING_TE`; both entries are dated `moment()`
(today), which is a parameter of the model. -/
def EXISTING_TE (today : Date) : List TimeEntry :=
  [ { id := "1", notes := "GST: hello world", time := 0, date := some today }
  , { id := "2", notes := "GST: another item", time := 0, date := some today } ]

/-- The root container state owned by `App`: the canonical list, the
change-set, the selected date (`null` when cleared) and the active timer id
(`undefined` when idle). -/
structure AppState where
  timeEntries : List TimeEntry
  changes : ChangedEntries
  currentDate : Option Date
  activeTimeEntry : Option EntryId

/-- The initial state of `App` for a given `savedChanges` prop value:
`timeEntries` is the seed list, `changes` is `savedChanges`, the selected
date starts at today and no timer is active. -/
def initState (savedChanges : ChangedEntries) (today : Date) : AppState :=
  { timeEntries := EXISTING_TE today
    changes := savedChanges
    currentDate := some today
    activeTimeEntry := none }

/-- `change(id, updates)`: merge `updates` onto the current pending record
for `id` (an absent record reads as `{}`) and store the result back under
`id`. -/
def change (id : EntryId) (updates : PartialTimeEntry) (s : AppState) : AppState :=
  let currentChanges := (s.changes id).getD {}
  let newItem := mergePartial currentChanges updates
  { s with changes := fun k => if k = id then some newItem else s.changes k }

/-- JavaScript `x || y` on an optional number: `y` when `x` is `undefined`
or `0` (both falsy), else the value of `x`. -/
def jsOr (x : Option Int) (y : Int) : Int :=
  match x with
  | some t => if t = 0 then y else t
  | none => y

/-- The `currentTime` expression of the interval callback:
`changes[activeTimeEntry]?.time || timeEntries.find(te => te.id === activeTimeEntry)?.time || 0`. -/
def effectiveTime (s : AppState) (id : EntryId) : Int :=
  jsOr ((s.changes id).bind PartialTimeEntry.time)
    (jsOr ((s.timeEntries.find? (fun te => te.id == id)).map TimeEntry.time) 0)

/-- One 1-second tick of the `useInterval` callback: when a timer is active,
record a change setting its pending time to `currentTime + 1`; otherwise do
nothing. -/
def tick (s : AppState) : AppState :=
  match s.activeTimeEntry with
  | some id => change id { time := some (effectiveTime s id + 1) } s
  | none => s

/-- `start(id)`. -/
def start (id : EntryId) (s : AppState) : AppState :=
  { s with activeTimeEntry := some id }

/-- `pause()`. -/
def pause (s : AppState) : AppState :=
  { s with activeTimeEntry := none }

/-- `clearChanges(id)`: delete the key `id` from the change-set. -/
def clearChanges (id : EntryId) (s : AppState) : AppState :=
  { s with changes := fun k => if k = id then none else s.changes k }

/-- `revert(id)`: pause first when `id` is the active timer, then clear its
pending changes. -/
def revert (id : EntryId) (s : AppState) : AppState :=
  clearChanges id (if s.activeTimeEntry = some id then pause s else s)

/-- `save(id)`: no-op unless a pending record and a canonical entry both
exist; otherwise replace every canonical entry whose id matches by the
shallow merge of the pending record onto the first matching entry, then
clear the pending record. -/
def save (id : EntryId) (s : AppState) : AppState :=
  match s.changes id, s.timeEntries.find? (fun te => te.id == id) with
  | some itemChanges, some existingItem =>
    let updatedItem := applyChanges existingItem itemChanges
    { s with
      timeEntries := s.timeEntries.map (fun te => if te.id == id then updatedItem else te)
      changes := fun k => if k = id then none else s.changes k }
  | _, _ => s

/-- The `DatePicker` `onChange={setCurrentDate}` handler: replace the
selected date (clearing the picker passes `null`). -/
def setCurrentDate (d : Option Date) (s : AppState) : AppState :=
  { s with currentDate := d }

/-- The merged view of one canonical entry:
`changes[te.id] ? { ...te, ...changes[te.id] } : te`. -/
def mergedView (s : AppState) (te : TimeEntry) : TimeEntry :=
  match s.changes te.id with
  | some c => applyChanges te c
  | none => te

/-- The `.map` stage of the derived view: every canonical entry with its
pending changes applied. -/
def mergedEntries (s : AppState) : List TimeEntry :=
  s.timeEntries.map (mergedView s)

/-- The filter predicate `te.date.dayOfYear() === currentDate?.dayOfYear()`:
`none` models the `TypeError` thrown when `te.date` is `undefined`; a
comparison against a cleared (`null`) selected date is `false`. -/
def doyMatch (s : AppState) (te : TimeEntry) : Option Bool :=
  te.date.map (fun d =>
    match s.currentDate with
    | some c => d.doy == c.doy
    | none => false)

/-- `.filter` over a predicate that may throw: the whole computation throws
(`none`) as soon as the predicate throws on some element. -/
def filterOpt {α : Type} (p : α → Option Bool) : List α → Option (List α)
  | [] => some []
  | x :: xs =>
    match p x with
    | none => none
    | some b => (filterOpt p xs).map (fun rest => if b then x :: rest else rest)

/-- The derived list `timeEntriesWithChanges`: merge every canonical entry
with its pending record, then filter by day-of-year against the selected
date.  `none` models the render throwing on an `undefined` merged date. -/
def timeEntriesWithChanges (s : AppState) : Option (List TimeEntry) :=
  filterOpt (doyMatch s) (mergedEntries s)

/-! ### Startup wiring (`src/src/index.tsx`) -/

/-- The fixed local-storage key `LOCAL_KEY_CHANGES`. -/
def LOCAL_KEY_CHANGES : String := "changes"

/-- The startup read in `index.tsx`: fetch the raw string under the fixed
key; a missing or empty value, or a parse failure, yields the empty
change-set.  `store` models `window.localStorage.getItem` and `parse`
models `JSON.parse` (throwing = `none`). -/
def readStoredChanges (store : String → Option String)
    (parse : String → Option ChangedEntries) : ChangedEntries :=
  match store LOCAL_KEY_CHANGES with
  | none => emptyChanges
  | some raw => if raw = "" then emptyChanges else (parse raw).getD emptyChanges

/-- The props object handed to the root component.  JavaScript props are an
open record: a field models a key, `none` models an absent key. -/
structure RootProps where
  initChanges : Option ChangedEntries := none
  savedChanges : Option ChangedEntries := none

/-- The JSX call in `index.tsx`:
`<App initChanges={localData} onSaveChanges={updateLocalStorage} />` —
the parsed mapping is passed under the key `initChanges`. -/
def renderRoot (store : String → Option String)
    (parse : String → Option ChangedEntries) : RootProps :=
  { initChanges := some (readStoredChanges store parse) }

/-- What `App` actually reads: `const { savedChanges, onSaveChanges } = props`,
then `useState<ChangedEntries>(savedChanges)` — the initial change-set state
is the `savedChanges` prop, `undefined` when that key was never passed. -/
def appInitialChanges (p : RootProps) : Option ChangedEntries :=
  p.savedChanges

/-! ### Helper lemmas -/

theorem AppState.extEq : ∀ {a b : AppState}, a.timeEntries = b.timeEntries →
    a.changes = b.changes → a.currentDate = b.currentDate →
    a.activeTimeEntry = b.activeTimeEntry → a = b
  | ⟨_, _, _, _⟩, ⟨_, _, _, _⟩, rfl, rfl, rfl, rfl => rfl

theorem overrideField_none_left {α : Type} (x : Option α) : overrideField none x = x := by
  cases x <;> rfl

theorem mergePartial_empty_left (u : PartialTimeEntry) : mergePartial {} u = u := by
  cases u
  simp [mergePartial, overrideField_none_left]

/-! ### C6: revert -/

/-- C6: `revert(id)` removes id's record from the change-set (and touches no
other record), leaves every canonical entry unchanged, sets the timer to
idle when id is the active timer and leaves the active timer unchanged
otherwise. -/
theorem revert_spec (s : AppState) (id : EntryId) :
    (revert id s).changes = (fun k => if k = id then none else s.changes k) ∧
    (revert id s).timeEntries = s.timeEntries ∧
    (revert id s).activeTimeEntry
      = (if s.activeTimeEntry = some id then none else s.activeTimeEntry) := by
  by_cases h : s.activeTimeEntry = some id <;>
    simp [revert, clearChanges, pause, h]

/-! ### C8: save is a silent no-op without a canonical entry or pending record -/

/-- C8: `save(id)` returns the state completely unchanged (canonical list,
change-set and active timer) whenever the change-set has no record for id or
no canonical entry has that id. -/
theorem save_noop (s : AppState) (id : EntryId)
    (h : s.changes id = none ∨ s.timeEntries.find? (fun te => te.id == id) = none) :
    save id s = s := by
  cases hc : s.changes id with
  | none => simp [save, hc]
  | some r =>
    cases hf : s.timeEntries.find? (fun te => te.id == id) with
    | none => simp [save, hc, hf]
    | some e =>
      rcases h with h | h
      · rw [hc] at h; exact absurd h (by simp)
      · rw [hf] at h; exact absurd h (by simp)

def c8State : AppState := initState emptyChanges { year := 2021, doy := 5 }

/-- C8 witness: saving an id with no pending record in a concrete state is a
no-op. -/
theorem save_noop_witness : save "9" c8State = c8State :=
  save_noop c8State "9" (Or.inl rfl)

/-! ### C10: clearChanges is idempotent -/

/-- C10: `clearChanges(id)` on a state where id has no record returns the
state unchanged, clearing twice equals clearing once, and `revert(id)` on an
id that is neither dirty nor the active timer leaves all state unchanged. -/
theorem clearChanges_idempotent (s : AppState) (id : EntryId) :
    (s.changes id = none → clearChanges id s = s) ∧
    clearChanges id (clearChanges id s) = clearChanges id s ∧
    (s.changes id = none → s.activeTimeEntry ≠ some id → revert id s = s) := by
  have hfun : ∀ cs : ChangedEntries, cs id = none →
      (fun k => if k = id then none else cs k) = cs := by
    intro cs h
    funext k
    by_cases hk : k = id
    · subst hk; rw [if_pos rfl, h]
    · rw [if_neg hk]
  refine ⟨fun h => ?_, ?_, fun h h2 => ?_⟩
  · exact AppState.extEq rfl (hfun s.changes h) rfl rfl
  · refine AppState.extEq rfl ?_ rfl rfl
    show (fun k => if k = id then none else (clearChanges id s).changes k)
       = (fun k => if k = id then none else s.changes k)
    funext k
    by_cases hk : k = id <;> simp [hk, clearChanges]
  · show clearChanges id (if s.activeTimeEntry = some id then pause s else s) = s
    rw [if_neg h2]
    exact AppState.extEq rfl (hfun s.changes h) rfl rfl

def c10State : AppState := initState emptyChanges { year := 2021, doy := 6 }

/-- C10 witness: reverting a clean, inactive id in a concrete state is the
identity. -/
theorem clearChanges_idempotent_witness : revert "2" c10State = c10State :=
  (clearChanges_idempotent c10State "2").2.2 rfl (fun h => Option.noConfusion h)

/-! ### C7: recordChange merges field-by-field, later write wins -/

/-- C7: `change(id, updates)` stores the field-by-field merge of `updates`
into the existing record (the record is created containing exactly the
supplied fields when id was not previously dirty), with the later write
winning per field and fields absent from the update kept from the earlier
record. -/
theorem change_spec (s : AppState) (id : EntryId) (u : PartialTimeEntry) :
    (change id u s).changes id = some (mergePartial ((s.changes id).getD {}) u) ∧
    (s.changes id = none → (change id u s).changes id = some u) ∧
    (∀ old : PartialTimeEntry,
      (∀ v, u.notes = some v → (mergePartial old u).notes = some v) ∧
      (u.notes = none → (mergePartial old u).notes = old.notes) ∧
      (∀ v, u.time = some v → (mergePartial old u).time = some v) ∧
      (u.time = none → (mergePartial old u).time = old.time) ∧
      (∀ v, u.date = some v → (mergePartial old u).date = some v) ∧
      (u.date = none → (mergePartial old u).date = old.date) ∧
      (∀ v, u.id = some v → (mergePartial old u).id = some v) ∧
      (u.id = none → (mergePartial old u).id = old.id)) := by
  refine ⟨by simp [change], fun h => ?_, fun old => ?_⟩
  · simp [change, h, mergePartial_empty_left]
  · refine ⟨fun v hv => ?_, fun hv => ?_, fun v hv => ?_, fun hv => ?_,
      fun v hv => ?_, fun hv => ?_, fun v hv => ?_, fun hv => ?_⟩ <;>
      simp [mergePartial, overrideField, hv]

def c7State : AppState := initState emptyChanges { year := 2021, doy := 7 }

/-- C7 witness: recording a notes change for a clean id in a concrete state
creates a record with exactly that field. -/
theorem change_spec_witness :
    (change "1" { notes := some "hi" } c7State).changes "1" = some { notes := some "hi" } :=
  (change_spec c7State "1" { notes := some "hi" }).2.1 rfl

/-! ### C2: timer tick -/

theorem jsOr_zero (x : Option Int) : jsOr x 0 = x.getD 0 := by
  cases x with
  | none => rfl
  | some t => by_cases ht : t = 0 <;> simp [jsOr, ht]

def c2CounterState : AppState :=
  { timeEntries := [ { id := "1", notes := "n", time := 5, date := some { year := 2021, doy := 9 } } ]
    changes := fun k => if k = "1" then some { time := some 0 } else none
    currentDate := some { year := 2021, doy := 9 }
    activeTimeEntry := some "1" }

/-- C2 counterexample: in a state whose change-set holds the pending time
override `0` for the running id while the canonical entry's time is `5`, the
tick records pending time `6` — the `||` chain skips the present-but-zero
override — whereas the claim (override wins whenever present) demands
`0 + 1 = 1`. -/
theorem tick_zero_override_counterexample :
    (c2CounterState.changes "1").bind PartialTimeEntry.time = some 0 ∧
    ((tick c2CounterState).changes "1").bind PartialTimeEntry.time = some 6 ∧
    (6 : Int) ≠ 0 + 1 := by
  refine ⟨rfl, rfl, by decide⟩

/-- C2 amended: while the timer runs on id, a tick merges into id's pending
record a time equal to one plus the effective time, where the effective time
is the pending override when it is present and nonzero, and otherwise the
canonical entry's time when an entry with that id exists (else 0). -/
theorem tick_increments_effective (s : AppState) (id : EntryId)
    (h : s.activeTimeEntry = some id) :
    (tick s).changes id
      = some (mergePartial ((s.changes id).getD {}) { time := some (effectiveTime s id + 1) }) ∧
    ((tick s).changes id).bind PartialTimeEntry.time = some (effectiveTime s id + 1) ∧
    (∀ t : Int, (s.changes id).bind PartialTimeEntry.time = some t → t ≠ 0 →
      effectiveTime s id = t) ∧
    ((s.changes id).bind PartialTimeEntry.time = none →
      effectiveTime s id
        = ((s.timeEntries.find? (fun te => te.id == id)).map TimeEntry.time).getD 0) ∧
    ((s.changes id).bind PartialTimeEntry.time = some 0 →
      effectiveTime s id
        = ((s.timeEntries.find? (fun te => te.id == id)).map TimeEntry.time).getD 0) := by
  have htick : tick s = change id { time := some (effectiveTime s id + 1) } s := by
    unfold tick; rw [h]
  refine ⟨?_, ?_, fun t ht hne => ?_, fun ht => ?_, fun ht => ?_⟩
  · rw [htick]; simp [change]
  · rw [htick]; simp [change, mergePartial, overrideField]
  · rw [effectiveTime, ht]; simp [jsOr, hne]
  · rw [effectiveTime, ht]; exact jsOr_zero _
  · rw [effectiveTime, ht]
    rw [show ∀ y : Int, jsOr (some 0) y = y from fun y => by simp [jsOr]]
    exact jsOr_zero _

def c2State : AppState :=
  { timeEntries := [ { id := "1", notes := "n", time := 4, date := some { year := 2021, doy := 8 } } ]
    changes := emptyChanges
    currentDate := some { year := 2021, doy := 8 }
    activeTimeEntry := some "1" }

/-- C2 witness: in a concrete running state the tick records one plus the
effective time. -/
theorem tick_increments_effective_witness :
    ((tick c2State).changes "1").bind PartialTimeEntry.time
      = some (effectiveTime c2State "1" + 1) :=
  (tick_increments_effective c2State "1" rfl).2.1

/-! ### C4: save applies the pending changes -/

/-- C4: when a canonical entry and a pending record both exist for id,
`save(id)` replaces the matching canonical entry by the shallow merge of the
record onto it, that merge equals the pre-save merged view of the entry, id
is removed from the change-set (no other record is touched), and the other
canonical entries, the active timer and the selected date are unaffected. -/
theorem save_applies_changes (s : AppState) (id : EntryId) (e : TimeEntry)
    (rec : PartialTimeEntry)
    (hfind : s.timeEntries.find? (fun te => te.id == id) = some e)
    (hrec : s.changes id = some rec) :
    (save id s).timeEntries
      = s.timeEntries.map (fun te => if te.id == id then applyChanges e rec else te) ∧
    mergedView s e = applyChanges e rec ∧
    (save id s).changes = (fun k => if k = id then none else s.changes k) ∧
    (save id s).changes id = none ∧
    (save id s).activeTimeEntry = s.activeTimeEntry ∧
    (save id s).currentDate = s.currentDate ∧
    (∀ te ∈ s.timeEntries, (te.id == id) = false → te ∈ (save id s).timeEntries) := by
  have heid : e.id = id := by
    have hpe := List.find?_some hfind
    exact eq_of_beq hpe
  have hsave : save id s = { s with
      timeEntries := s.timeEntries.map (fun te => if te.id == id then applyChanges e rec else te)
      changes := fun k => if k = id then none else s.changes k } := by
    unfold save
    rw [hrec, hfind]
  refine ⟨by rw [hsave], ?_, by rw [hsave], by rw [hsave]; simp, by rw [hsave],
    by rw [hsave], fun te hte hfalse => ?_⟩
  · rw [mergedView, heid, hrec]
  · rw [hsave]
    have hkeep : (fun te => if te.id == id then applyChanges e rec else te) te = te := by
      simp [hfalse]
    exact hkeep ▸ List.mem_map_of_mem _ hte

def c4State : AppState :=
  { timeEntries := EXISTING_TE { year := 2021, doy := 40 }
    changes := fun k => if k = "1" then some { notes := some "edited" } else none
    currentDate := some { year := 2021, doy := 40 }
    activeTimeEntry := none }

/-- C4 witness: saving the dirty entry of a concrete state clears its
pending record. -/
theorem save_applies_changes_witness : (save "1" c4State).changes "1" = none :=
  (save_applies_changes c4State "1"
    { id := "1", notes := "GST: hello world", time := 0, date := some { year := 2021, doy := 40 } }
    { notes := some "edited" } rfl rfl).2.2.2.1

/-! ### C3: the dirty-tracking invariant -/

/-- The §3 invariant: every key of the change-set maps to a record with at
least one present field (no key maps to the `{}` record). -/
def dirtyInvariant (cs : ChangedEntries) : Prop :=
  ∀ id r, cs id = some r → r.isEmpty = false

theorem mergePartial_isEmpty (old u : PartialTimeEntry) :
    (mergePartial old u).isEmpty = (old.isEmpty && u.isEmpty) := by
  cases h1 : u.id <;> cases h2 : u.notes <;> cases h3 : u.time <;> cases h4 : u.date <;>
    simp [mergePartial, PartialTimeEntry.isEmpty, overrideField, h1, h2, h3, h4]

theorem dirtyInvariant_change (s : AppState) (id : EntryId) (u : PartialTimeEntry)
    (h : dirtyInvariant s.changes) (hu : u.isEmpty = false) :
    dirtyInvariant ((change id u s).changes) := by
  intro k r hk
  have hk2 : (if k = id then some (mergePartial ((s.changes id).getD {}) u)
      else s.changes k) = some r := hk
  by_cases hki : k = id
  · rw [if_pos hki, Option.some.injEq] at hk2
    rw [← hk2, mergePartial_isEmpty, hu, Bool.and_false]
  · rw [if_neg hki] at hk2
    exact h k r hk2

theorem dirtyInvariant_erase (cs : ChangedEntries) (id : EntryId)
    (h : dirtyInvariant cs) :
    dirtyInvariant (fun k => if k = id then none else cs k) := by
  intro k r hk
  have hk2 : (if k = id then none else cs k) = some r := hk
  by_cases hki : k = id
  · rw [if_pos hki] at hk2
    exact Option.noConfusion hk2
  · rw [if_neg hki] at hk2
    exact h k r hk2

def c3BadChanges : ChangedEntries := fun k => if k = "1" then some {} else none

/-- C3 counterexample: the persisted change-set is not validated at load, so
starting from the stored mapping that binds id "1" to the empty record
yields a state whose change-set has a key with no uncommitted field change,
violating the invariant. -/
theorem dirty_invariant_counterexample :
    (initState c3BadChanges { year := 2021, doy := 11 }).changes "1" = some {} ∧
    PartialTimeEntry.isEmpty {} = true ∧
    ¬ dirtyInvariant ((initState c3BadChanges { year := 2021, doy := 11 }).changes) := by
  refine ⟨rfl, rfl, fun h => ?_⟩
  have h2 := h "1" {} rfl
  exact absurd h2 (by decide)

/-- C3 amended: every operation of the component (recordChange with at least
one supplied field — the only way the UI and the tick call it — clearChanges,
save, revert, and the timer tick) preserves the invariant, and the startup
load establishes it exactly when the persisted change-set itself satisfies
it; a persisted empty record violates it at startup. -/
theorem dirty_invariant_preserved (s : AppState) (h : dirtyInvariant s.changes) :
    (∀ id u, u.isEmpty = false → dirtyInvariant ((change id u s).changes)) ∧
    (∀ id, dirtyInvariant ((clearChanges id s).changes)) ∧
    (∀ id, dirtyInvariant ((save id s).changes)) ∧
    (∀ id, dirtyInvariant ((revert id s).changes)) ∧
    dirtyInvariant ((tick s).changes) ∧
    (∀ cs : ChangedEntries, ∀ d : Date,
      dirtyInvariant cs → dirtyInvariant ((initState cs d).changes)) := by
  refine ⟨fun id u hu => dirtyInvariant_change s id u h hu,
    fun id => dirtyInvariant_erase s.changes id h,
    fun id => ?_, fun id => ?_, ?_, fun cs d hcs => hcs⟩
  · cases hc : s.changes id with
    | none =>
      have hs : save id s = s := by
        unfold save; rw [hc]
      rw [hs]; exact h
    | some r =>
      cases hf : s.timeEntries.find? (fun te => te.id == id) with
      | none =>
        have hs : save id s = s := by
          unfold save; rw [hc, hf]
        rw [hs]; exact h
      | some e =>
        have hs : (save id s).changes = fun k => if k = id then none else s.changes k := by
          unfold save; rw [hc, hf]
        rw [hs]; exact dirtyInvariant_erase s.changes id h
  · have hs : (revert id s).changes = fun k => if k = id then none else s.changes k := by
      unfold revert
      by_cases ha : s.activeTimeEntry = some id <;> simp [ha, clearChanges, pause]
    rw [hs]; exact dirtyInvariant_erase s.changes id h
  · cases ht : s.activeTimeEntry with
    | none =>
      have hs : tick s = s := by
        unfold tick; rw [ht]
      rw [hs]; exact h
    | some id =>
      have hs : tick s = change id { time := some (effectiveTime s id + 1) } s := by
        unfold tick; rw [ht]
      rw [hs]
      exact dirtyInvariant_change s id _ h rfl

def c3GoodState : AppState := initState emptyChanges { year := 2021, doy := 12 }

/-- C3 witness: clearing changes in a concrete state whose change-set
satisfies the invariant keeps the invariant. -/
theorem dirty_invariant_preserved_witness :
    dirtyInvariant ((clearChanges "1" c3GoodState).changes) :=
  (dirty_invariant_preserved c3GoodState (fun _ _ hk => Option.noConfusion hk)).2.1 "1"

/-! ### C5 and C9: the derived view -/

theorem filterOpt_eq_filter {α : Type} (p : α → Option Bool) (l : List α)
    (h : ∀ x ∈ l, (p x).isSome) :
    filterOpt p l = some (l.filter (fun x => (p x).getD false)) := by
  induction l with
  | nil => rfl
  | cons x xs ih =>
    have hx := h x (List.mem_cons_self x xs)
    cases hp : p x with
    | none => rw [hp] at hx; simp at hx
    | some b =>
      have ih2 := ih (fun y hy => h y (List.mem_cons_of_mem x hy))
      rw [show filterOpt p (x :: xs) = (match p x with
        | none => none
        | some b => (filterOpt p xs).map (fun rest => if b then x :: rest else rest)) from rfl]
      rw [hp, ih2]
      cases b <;> simp [List.filter_cons, hp]

theorem doyMatch_isSome (s : AppState) (h : ∀ te ∈ mergedEntries s, (te.date).isSome) :
    ∀ te ∈ mergedEntries s, (doyMatch s te).isSome := by
  intro te hte
  cases hd : te.date with
  | none => have := h te hte; rw [hd] at this; simp at this
  | some d => simp [doyMatch, hd]

def c5CrashState : AppState :=
  { timeEntries := [ { id := "1", notes := "n", time := 0, date := some { year := 2021, doy := 20 } } ]
    changes := fun k => if k = "1" then some { date := some none } else none
    currentDate := some { year := 2021, doy := 20 }
    activeTimeEntry := none }

/-- C5 counterexample: in a state whose pending record clears the entry's
date (`{date: undefined}`, produced by clearing the date picker), the merged
entry's date is `undefined` and `te.date.dayOfYear()` throws (modelled by
`none`): no visible list is produced at all, although merged entries exist,
so the derived view is not the day-of-year filter of the merges. -/
theorem derived_view_crash_counterexample :
    timeEntriesWithChanges c5CrashState = none ∧ mergedEntries c5CrashState ≠ [] := by
  exact ⟨rfl, by decide⟩

/-- C5 amended: in every state in which each merged entry has a defined
date, the derived visible list is obtained by shallow-merging each canonical
entry with its pending record when one exists and keeping exactly the merged
entries whose day-of-year equals the selected date's day-of-year (a cleared
selected date matches nothing). -/
theorem derived_view_merge_filter (s : AppState)
    (h : ∀ te ∈ mergedEntries s, (te.date).isSome) :
    mergedEntries s = s.timeEntries.map (mergedView s) ∧
    timeEntriesWithChanges s
      = some ((mergedEntries s).filter
          (fun te => match te.date, s.currentDate with
            | some d, some c => d.doy == c.doy
            | _, _ => false)) := by
  refine ⟨rfl, ?_⟩
  rw [timeEntriesWithChanges,
    filterOpt_eq_filter (doyMatch s) (mergedEntries s) (doyMatch_isSome s h)]
  congr 1
  apply List.filter_congr
  intro te hte
  have hds := h te hte
  cases hd : te.date with
  | none => rw [hd] at hds; simp at hds
  | some d => cases hc : s.currentDate <;> simp [doyMatch, hd, hc]

def c5State : AppState :=
  { timeEntries := EXISTING_TE { year := 2021, doy := 21 }
    changes := fun k => if k = "1" then some { notes := some "x" } else none
    currentDate := some { year := 2021, doy := 21 }
    activeTimeEntry := none }

/-- C5 witness: the derived view of a concrete dirty state with defined
dates is the day-of-year filter of the merged entries. -/
theorem derived_view_merge_filter_witness :
    timeEntriesWithChanges c5State
      = some ((mergedEntries c5State).filter
          (fun te => match te.date, c5State.currentDate with
            | some d, some c => d.doy == c.doy
            | _, _ => false)) :=
  (derived_view_merge_filter c5State (by decide)).2

def c9CrashState : AppState :=
  { timeEntries := [ { id := "1", notes := "n", time := 0, date := some { year := 2021, doy := 30 } } ]
    changes := fun k => if k = "1" then some { date := some none } else none
    currentDate := none
    activeTimeEntry := none }

/-- C9 counterexample: with the selected date cleared but a pending record
whose date is `undefined`, the render still evaluates
`te.date.dayOfYear()` first and throws (modelled by `none`), so the derived
visible list is not the empty list even though canonical entries exist. -/
theorem cleared_date_crash_counterexample :
    c9CrashState.currentDate = none ∧ c9CrashState.timeEntries ≠ [] ∧
    timeEntriesWithChanges c9CrashState ≠ some [] := by
  refine ⟨rfl, by decide, ?_⟩
  rw [show timeEntriesWithChanges c9CrashState = none from rfl]
  exact fun hcontra => Option.noConfusion hcontra

/-- C9 amended: in every state in which each merged entry has a defined date
and the selected date is cleared, the derived visible list is empty; and
changing or clearing the selected date never affects the canonical entry
list, the change-set or the active timer. -/
theorem cleared_date_view_empty (s : AppState)
    (h : ∀ te ∈ mergedEntries s, (te.date).isSome)
    (hd : s.currentDate = none) :
    timeEntriesWithChanges s = some [] ∧
    (∀ d : Option Date,
      (setCurrentDate d s).timeEntries = s.timeEntries ∧
      (setCurrentDate d s).changes = s.changes ∧
      (setCurrentDate d s).activeTimeEntry = s.activeTimeEntry) := by
  refine ⟨?_, fun d => ⟨rfl, rfl, rfl⟩⟩
  rw [timeEntriesWithChanges,
    filterOpt_eq_filter (doyMatch s) (mergedEntries s) (doyMatch_isSome s h)]
  congr 1
  rw [List.filter_eq_nil_iff]
  intro te hte
  have hds := h te hte
  cases hdte : te.date with
  | none => rw [hdte] at hds; simp at hds
  | some d2 => simp [doyMatch, hdte, hd]

def c9State : AppState :=
  { timeEntries := EXISTING_TE { year := 2021, doy := 31 }
    changes := emptyChanges
    currentDate := none
    activeTimeEntry := none }

/-- C9 witness: a concrete state with defined dates and a cleared selected
date has an empty visible list. -/
theorem cleared_date_view_empty_witness :
    timeEntriesWithChanges c9State = some [] :=
  (cleared_date_view_empty c9State (by decide) rfl).1

/-! ### C1: startup restore of the persisted change-set -/

def c1StoredMap : ChangedEntries :=
  fun k => if k = "1" then some { notes := some "x" } else none

def c1Store : String → Option String :=
  fun k => if k = "changes" then some "stored" else none

def c1Parse : String → Option ChangedEntries :=
  fun raw => if raw = "stored" then some c1StoredMap else none

/-- C1: the startup wiring loses the stored change-set.  `index.tsx` reads
the mapping under the key `changes` (absence or parse failure yielding the
empty mapping) but passes it to the root component under the prop name
`initChanges`, while `App` destructures the prop `savedChanges`; hence the
component's initial change-set state is `undefined` — never the mapping that
was read — for every store content and every parse result. -/
theorem startup_changes_lost :
    readStoredChanges c1Store c1Parse = c1StoredMap ∧
    appInitialChanges (renderRoot c1Store c1Parse) = none ∧
    (∀ store : String → Option String, ∀ parse : String → Option ChangedEntries,
      appInitialChanges (renderRoot store parse) = none) := by
  exact ⟨rfl, rfl, fun _ _ => rfl⟩
